import Mathlib

/-!
Verification of the MT command layer of `zigpy_znp/commands/types.py`.

The command machinery (`CommandBase.__init__`, `to_frame`, `from_frame`,
`matches`, `__setattr__`/`__delattr__`, `CommandHeader`, `CommandsMeta`,
`ErrorCode`) is embedded from the source file.  The primitive parameter
types (`zigpy_znp.types`: fixed-width little-endian integers, enumerations
backed by `uint8`, length-prefixed `ShortBytes`) and the `GeneralFrame`
pair are not part of the provided sources and are modelled from the spec.
-/

/-- Modelled from the spec: the declared type of a schema parameter
(`param.type` in the source).  The spec's primitive types: fixed-width
little-endian unsigned integers, `uint8`-backed enumerations, and
length-prefixed byte strings (`ShortBytes`). -/
inductive ParamType where
  | ptUint8
  | ptUint16
  | ptUint32
  | ptEnumUint8
  | ptShortBytes
deriving DecidableEq, Repr

/-- Modelled from the spec: a runtime (Python) value that can be supplied
for a parameter.  `rPlainInt` is a bare Python `int`; `rUint8/16/32` are
values of the fixed-width integer classes (which subclass `int` and are
range-checked only at serialize time); `rEnumU8` is a member of a
`uint8`-backed enumeration (an `int` at runtime, carrying its numeric
value); `rBytes` is a bare byte string; `rShortBytes` a value of the
length-prefixed byte-string class; `rOther` any other runtime value. -/
inductive RawValue where
  | rPlainInt (n : Int)
  | rUint8 (n : Int)
  | rUint16 (n : Int)
  | rUint32 (n : Int)
  | rEnumU8 (n : Int)
  | rBytes (bs : List Nat)
  | rShortBytes (bs : List Nat)
  | rOther
deriving DecidableEq, Repr

/-- Modelled from the spec: `isinstance(value, param.type)` for the value
universe above.  The fixed-width integer classes are sibling subclasses of
`int`, so only a value of exactly the declared class is an instance. -/
def isinstance : RawValue → ParamType → Bool
  | .rUint8 _, .ptUint8 => true
  | .rUint16 _, .ptUint16 => true
  | .rUint32 _, .ptUint32 => true
  | .rEnumU8 _, .ptEnumUint8 => true
  | .rShortBytes _, .ptShortBytes => true
  | _, _ => false

/-- Modelled from the spec: `isinstance(value, int)`.  All fixed-width
integer classes and `uint8`-backed enum members subclass `int`. -/
def isIntValue : RawValue → Bool
  | .rPlainInt _ | .rUint8 _ | .rUint16 _ | .rUint32 _ | .rEnumU8 _ => true
  | _ => false

/-- Modelled from the spec: `issubclass(param.type, int)`. -/
def isIntType : ParamType → Bool
  | .ptUint8 | .ptUint16 | .ptUint32 | .ptEnumUint8 => true
  | .ptShortBytes => false

/-- The numeric value of an `int`-typed runtime value. -/
def intVal : RawValue → Int
  | .rPlainInt n | .rUint8 n | .rUint16 n | .rUint32 n | .rEnumU8 n => n
  | _ => 0

/-- Modelled from the spec: `param.type(value)` for an `int`-typed value,
i.e. construction of the declared integer class from a Python `int`.  No
range check happens at construction; ranges are checked at serialize
time. -/
def intCoerce : ParamType → Int → RawValue
  | .ptUint8, n => .rUint8 n
  | .ptUint16, n => .rUint16 n
  | .ptUint32, n => .rUint32 n
  | .ptEnumUint8, n => .rEnumU8 n
  | .ptShortBytes, n => .rPlainInt n

/-- Modelled from the spec: `value.serialize()`.  Fixed-width integers
serialize little-endian and overflow (fail) when out of range;
`ShortBytes` serializes as a one-byte length prefix followed by the
payload, overflowing when the length exceeds 255.  Bare `int` and bare
`bytes` values have no `serialize` method. -/
def serializeRV : RawValue → Option (List Nat)
  | .rUint8 n => if 0 ≤ n ∧ n < 256 then some [n.toNat] else none
  | .rUint16 n => if 0 ≤ n ∧ n < 65536 then some [n.toNat % 256, n.toNat / 256] else none
  | .rUint32 n =>
    if 0 ≤ n ∧ n < 4294967296 then
      some [n.toNat % 256, n.toNat / 256 % 256, n.toNat / 65536 % 256, n.toNat / 16777216]
    else none
  | .rEnumU8 n => if 0 ≤ n ∧ n < 256 then some [n.toNat] else none
  | .rShortBytes bs => if bs.length < 256 then some (bs.length :: bs) else none
  | _ => none

/-- Modelled from the spec: `param.type.deserialize(data)`.  Reads one
value of the declared type off the front of the byte list and returns it
with the remaining bytes.  Deserializing an enumeration never fails on an
unknown value: it yields a synthetic member carrying that value. -/
def deserializeP : ParamType → List Nat → Option (RawValue × List Nat)
  | .ptUint8, b :: rest => some (.rUint8 (Int.ofNat b), rest)
  | .ptUint16, b0 :: b1 :: rest => some (.rUint16 (Int.ofNat (b0 + 256 * b1)), rest)
  | .ptUint32, b0 :: b1 :: b2 :: b3 :: rest =>
    some (.rUint32 (Int.ofNat (b0 + 256 * b1 + 65536 * b2 + 16777216 * b3)), rest)
  | .ptEnumUint8, b :: rest => some (.rEnumU8 (Int.ofNat b), rest)
  | .ptShortBytes, n :: rest =>
    if n ≤ rest.length then some (.rShortBytes (rest.take n), rest.drop n) else none
  | _, _ => none

/-- A value is well formed for a declared type when it is of that type and
within the type's range (with every byte of a byte string an actual
byte). -/
def wellTyped : RawValue → ParamType → Bool
  | .rUint8 n, .ptUint8 => decide (0 ≤ n ∧ n < 256)
  | .rUint16 n, .ptUint16 => decide (0 ≤ n ∧ n < 65536)
  | .rUint32 n, .ptUint32 => decide (0 ≤ n ∧ n < 4294967296)
  | .rEnumU8 n, .ptEnumUint8 => decide (0 ≤ n ∧ n < 256)
  | .rShortBytes bs, .ptShortBytes =>
    decide (bs.length < 256) && bs.all (fun b => decide (b < 256))
  | _, _ => false

/-- Modelled from the spec: `t.Param` — a named, typed schema parameter. -/
structure Param where
  name : String
  type : ParamType
deriving DecidableEq, Repr

/-- Modelled from the spec: `t.Schema` — an ordered list of parameters. -/
structure Schema where
  parameters : List Param
deriving DecidableEq, Repr

/-- A concrete command class as produced by `CommandsMeta`: a header and a
parameter schema (`CommandBase.__init_subclass__`, lines 232-235). -/
structure CommandClass where
  header : Nat
  schema : Schema
deriving DecidableEq, Repr

/-- Modelled from the spec: `GeneralFrame` — the `(header, payload)` pair
produced by `to_frame` and consumed by `from_frame`. -/
structure Frame where
  header : Nat
  data : List Nat
deriving DecidableEq, Repr

/-- A command instance: its class together with `_bound_params`, the
name-keyed mapping (kept in schema order, as Python dicts preserve
insertion order) from each schema parameter to its bound value, `none`
marking a wildcard of a partial command. -/
structure CommandBase where
  cls : CommandClass
  bound : List (Param × Option RawValue)
deriving DecidableEq, Repr

/-- Errors raised by the command layer (`KeyError`, `ValueError`,
`RuntimeError` in the source). -/
inductive CmdError where
  | missingParams
  | unexpectedParams
  | typeMismatch
  | invalidValue
  | partialFrame
  | notSerializable
  | wrongHeader
  | unparsedData
  | deserializeFailed
  | immutable
deriving DecidableEq, Repr

/-- Keyword-argument lookup: `params.get(name)`. -/
def lookupParam (params : List (String × RawValue)) (name : String) : Option RawValue :=
  (params.find? (fun q => q.1 = name)).map Prod.snd

/-- One iteration of the binding loop of `CommandBase.__init__`
(lines 251-281): wildcard a missing parameter when partial, accept a value
of the declared type outright, coerce an `int`-typed value into a
non-enumeration integer type (checking the range by serializing early),
coerce bare bytes into `ShortBytes`, and reject anything else. -/
def bindOne (partialFlag : Bool) (params : List (String × RawValue)) (p : Param) :
    Except CmdError (Option RawValue) :=
  match lookupParam params p.name with
  | none => if partialFlag then .ok none else .error .missingParams
  | some v =>
    if isinstance v p.type then .ok (some v)
    else if isIntValue v && isIntType p.type && !(p.type == .ptEnumUint8) then
      match serializeRV (intCoerce p.type (intVal v)) with
      | some _ => .ok (some (intCoerce p.type (intVal v)))
      | none => .error .invalidValue
    else
      match v, p.type with
      | .rBytes bs, .ptShortBytes =>
        match serializeRV (.rShortBytes bs) with
        | some _ => .ok (some (RawValue.rShortBytes bs))
        | none => .error .invalidValue
      | _, _ => .error .typeMismatch

/-- The binding loop of `CommandBase.__init__` over the whole schema. -/
def bindParams (partialFlag : Bool) (params : List (String × RawValue)) :
    List Param → Except CmdError (List (Param × Option RawValue))
  | [] => .ok []
  | p :: ps => do
    let v? ← bindOne partialFlag params p
    let rest ← bindParams partialFlag params ps
    .ok ((p, v?) :: rest)

/-- Construction, `CommandBase.__init__` (lines 237-286): a non-partial
instance must be given every schema parameter, no unknown parameter may be
given, and each value is bound through `bindOne`. -/
def initCommand (cls : CommandClass) (partialFlag : Bool)
    (params : List (String × RawValue)) : Except CmdError CommandBase :=
  let allNames := cls.schema.parameters.map (fun p => p.name)
  let givenNames := params.map (fun q => q.1)
  if !partialFlag && allNames.any (fun n => !(givenNames.contains n)) then
    .error .missingParams
  else if givenNames.any (fun n => !(allNames.contains n)) then
    .error .unexpectedParams
  else
    (bindParams partialFlag params cls.schema.parameters).map (fun bound => ⟨cls, bound⟩)

/-- Serialization of the bound values, in schema order, as in the
`b"".join(v.serialize() for p, v in self._bound_params.values())` of
`to_frame`. -/
def serializeBound : List (Param × Option RawValue) → Option (List Nat)
  | [] => some []
  | (_, none) :: _ => none
  | (_, some v) :: rest => do
    let b ← serializeRV v
    let bs ← serializeBound rest
    some (b ++ bs)

/-- `CommandBase.to_frame` (lines 288-300): refuse to serialize when any
parameter is unbound, otherwise concatenate the parameter serializations
in schema order under the class header. -/
def CommandBase.to_frame (c : CommandBase) : Except CmdError Frame :=
  if c.bound.any (fun pv => pv.2.isNone) then
    .error .partialFrame
  else
    match serializeBound c.bound with
    | some data => .ok ⟨c.cls.header, data⟩
    | none => .error .notSerializable

/-- The deserialization loop of `from_frame`: read one value per schema
parameter, in order, keeping the unconsumed remainder. -/
def deserializeSeq : List Param → List Nat →
    Option (List (String × RawValue) × List Nat)
  | [], data => some ([], data)
  | p :: ps, data => do
    let (v, rest) ← deserializeP p.type data
    let (vs, rest') ← deserializeSeq ps rest
    some ((p.name, v) :: vs, rest')

/-- `CommandBase.from_frame` (lines 302-318): reject a frame whose header
differs from the class header, read the parameters in schema order,
reject trailing bytes, and construct the instance. -/
def CommandBase.from_frame (cls : CommandClass) (f : Frame) : Except CmdError CommandBase :=
  if f.header ≠ cls.header then .error .wrongHeader
  else
    match deserializeSeq cls.schema.parameters f.data with
    | none => .error .deserializeFailed
    | some (ps, rest) =>
      if rest ≠ [] then .error .unparsedData
      else initCommand cls false ps

/-- The pairwise value test of `CommandBase.matches`: every bound
(non-wildcard) expected value must equal the corresponding actual value
(`zip` stops at the shorter list, as in Python). -/
def matchesValues : List (Option RawValue) → List (Option RawValue) → Bool
  | [], _ => true
  | _ :: _, [] => true
  | e :: es, a :: as' =>
    (match e with
     | none => true
     | some v => decide (a = some v)) && matchesValues es as'

/-- `CommandBase.matches` (lines 320-338): instances of different classes
never match; otherwise every bound parameter of the expected instance must
equal the corresponding parameter of the actual instance. -/
def CommandBase.matches (c other : CommandBase) : Bool :=
  if c.cls ≠ other.cls then false
  else matchesValues (c.bound.map (fun pv => pv.2)) (other.bound.map (fun pv => pv.2))

/-- `CommandBase.__setattr__` (lines 354-355): unconditionally raises. -/
def CommandBase.setattr (c : CommandBase) (key : String) (value : RawValue) :
    Except CmdError CommandBase := .error .immutable

/-- `CommandBase.__delattr__` (lines 357-358): unconditionally raises. -/
def CommandBase.delattr (c : CommandBase) (key : String) :
    Except CmdError CommandBase := .error .immutable

/-- Command subsystems (`Subsystem`, lines 57-91): a `uint8`-backed
enumeration declaring every value `0x00`-`0x1F`, so constructing a member
from any 5-bit value succeeds. -/
abbrev Subsystem := Fin 32

/-- `Subsystem(value)`: succeeds exactly on the declared values 0-31. -/
def Subsystem.ofNat? (n : Nat) : Option Subsystem :=
  if h : n < 32 then some ⟨n, h⟩ else none

/-- Command types (`CommandType`, lines 25-36): an `IntEnum` declaring
every value 0-7 (`POLL`=0, `SREQ`=1, `AREQ`=2, `SRSP`=3, the rest
reserved). -/
abbrev CommandType := Fin 8

def CommandType.POLL : CommandType := 0

def CommandType.SREQ : CommandType := 1

def CommandType.AREQ : CommandType := 2

def CommandType.SRSP : CommandType := 3

/-- `CommandType(value)`: succeeds exactly on the declared values 0-7. -/
def CommandType.ofNat? (n : Nat) : Option CommandType :=
  if h : n < 8 then some ⟨n, h⟩ else none

/-- `CommandHeader.cmd0` (lines 114-116): the low byte. -/
def CommandHeader.cmd0 (h : Nat) : Nat := h &&& 0x00FF

/-- `CommandHeader.id` (lines 118-121): the high byte. -/
def CommandHeader.id (h : Nat) : Nat := h >>> 8

/-- `CommandHeader.with_id` (lines 123-125). -/
def CommandHeader.with_id (h v : Nat) : Nat :=
  (h &&& 0x00FF) ||| ((v &&& 0xFF) <<< 8)

/-- `CommandHeader.subsystem` (lines 127-130). -/
def CommandHeader.subsystem (h : Nat) : Option Subsystem :=
  Subsystem.ofNat? (CommandHeader.cmd0 h &&& 0x1F)

/-- `CommandHeader.with_subsystem` (lines 132-133). -/
def CommandHeader.with_subsystem (h v : Nat) : Nat :=
  (h &&& 0xFFE0) ||| (v &&& 0x1F)

/-- `CommandHeader.type` (lines 135-138). -/
def CommandHeader.type (h : Nat) : Option CommandType :=
  CommandType.ofNat? (CommandHeader.cmd0 h >>> 5)

/-- `CommandHeader.with_type` (lines 140-141). -/
def CommandHeader.with_type (h v : Nat) : Nat :=
  (h &&& 0xFF1F) ||| ((v &&& 0x07) <<< 5)

/-- A command definition from the catalog (`CommandDef`, lines 144-149). -/
structure CommandDef where
  command_type : CommandType
  command_id : Nat
  req_schema : Schema
  rsp_schema : Schema
deriving DecidableEq, Repr

/-- The header computed by `CommandsMeta.__new__` (lines 179-184):
`CommandHeader().with_id(id).with_type(type).with_subsystem(subsystem)`. -/
def commandHeaderFor (subsystem : Subsystem) (d : CommandDef) : Nat :=
  CommandHeader.with_subsystem
    (CommandHeader.with_type (CommandHeader.with_id 0 d.command_id) d.command_type.val)
    subsystem.val

/-- Registration of an SREQ command by `CommandsMeta.__new__`
(lines 186-203): the request class carries the computed header and the
request schema; the response class carries `0x0040 + req_header` and the
response schema. -/
def mkSREQClasses (subsystem : Subsystem) (d : CommandDef) : CommandClass × CommandClass :=
  let req_header := commandHeaderFor subsystem d
  let rsp_header := 0x0040 + req_header
  (⟨req_header, d.req_schema⟩, ⟨rsp_header, d.rsp_schema⟩)

/-- The `ErrorCode` enumeration (lines 39-54), together with the synthetic
`unknown_0xNN` members produced by its `deserialize` fallback. -/
inductive ErrorCodeV where
  | INVALID_SUBSYSTEM
  | INVALID_COMMAND_ID
  | INVALID_PARAMETER
  | INVALID_LENGTH
  | unknown (code : Nat)
deriving DecidableEq, Repr

/-- The numeric value carried by an `ErrorCode` member. -/
def ErrorCodeV.value : ErrorCodeV → Nat
  | .INVALID_SUBSYSTEM => 0x01
  | .INVALID_COMMAND_ID => 0x02
  | .INVALID_PARAMETER => 0x03
  | .INVALID_LENGTH => 0x04
  | .unknown code => code

/-- Lookup of a declared `ErrorCode` member by value (the base
`Enum.deserialize`, modelled from the spec, raises `ValueError` exactly
when this returns `none`). -/
def ErrorCode.fromValue? : Nat → Option ErrorCodeV
  | 0x01 => some .INVALID_SUBSYSTEM
  | 0x02 => some .INVALID_COMMAND_ID
  | 0x03 => some .INVALID_PARAMETER
  | 0x04 => some .INVALID_LENGTH
  | _ => none

/-- `ErrorCode.deserialize` (lines 47-54): try the base enumeration
deserialization; on `ValueError` read the byte as `uint8` and wrap it in a
synthetic `unknown_0xNN` member carrying the value. -/
def ErrorCode.deserialize : List Nat → Option (ErrorCodeV × List Nat)
  | [] => none
  | b :: rest =>
    match ErrorCode.fromValue? b with
    | some m => some (m, rest)
    | none => some (.unknown b, rest)

lemma and_255_eq_mod (x : Nat) : x &&& 255 = x % 256 := by
  have h := Nat.and_pow_two_sub_one_eq_mod x 8
  norm_num at h
  exact h

lemma and_31_eq_mod (x : Nat) : x &&& 31 = x % 32 := by
  have h := Nat.and_pow_two_sub_one_eq_mod x 5
  norm_num at h
  exact h

lemma and_7_eq_mod (x : Nat) : x &&& 7 = x % 8 := by
  have h := Nat.and_pow_two_sub_one_eq_mod x 3
  norm_num at h
  exact h

lemma and_2047_eq_mod (x : Nat) : x &&& 2047 = x % 2048 := by
  have h := Nat.and_pow_two_sub_one_eq_mod x 11
  norm_num at h
  exact h

lemma and_mask_shiftLeft (h m k : Nat) : h &&& (m <<< k) = ((h >>> k) &&& m) <<< k := by
  apply Nat.eq_of_testBit_eq
  intro i
  simp only [Nat.testBit_and, Nat.testBit_shiftLeft, Nat.testBit_shiftRight]
  by_cases hk : k ≤ i
  · have hik : k + (i - k) = i := by omega
    simp [hk, hik]
  · simp [hk]

lemma mul256_or_eq_add (a b : Nat) (hb : b < 256) : a * 256 ||| b = a * 256 + b := by
  have hb' : b < 2 ^ 8 := lt_of_lt_of_le hb (by norm_num)
  have h := Nat.mul_add_lt_is_or hb' a
  have e8 : (2 : Nat) ^ 8 = 256 := by norm_num
  rw [e8, Nat.mul_comm 256 a] at h
  exact h.symm

lemma mul32_or_eq_add (a b : Nat) (hb : b < 32) : a * 32 ||| b = a * 32 + b := by
  have hb' : b < 2 ^ 5 := lt_of_lt_of_le hb (by norm_num)
  have h := Nat.mul_add_lt_is_or hb' a
  have e5 : (2 : Nat) ^ 5 = 32 := by norm_num
  rw [e5, Nat.mul_comm 32 a] at h
  exact h.symm

lemma hdr_with_id_eq (h v : Nat) :
    CommandHeader.with_id h v = 256 * (v % 256) + h % 256 := by
  rw [CommandHeader.with_id]
  have h1 : (0x00FF : Nat) = 255 := by norm_num
  have h2 : (0xFF : Nat) = 255 := by norm_num
  rw [h1, h2, and_255_eq_mod, and_255_eq_mod, Nat.shiftLeft_eq]
  have e8 : (2 : Nat) ^ 8 = 256 := by norm_num
  rw [e8, Nat.or_comm, mul256_or_eq_add _ _ (Nat.mod_lt _ (by norm_num))]
  omega

lemma hdr_with_subsystem_eq (h v : Nat) :
    CommandHeader.with_subsystem h v = 32 * (h / 32 % 2048) + v % 32 := by
  rw [CommandHeader.with_subsystem]
  have hm : (0xFFE0 : Nat) = 2047 <<< 5 := by decide
  have h1 : (0x1F : Nat) = 31 := by norm_num
  rw [hm, h1, and_mask_shiftLeft, and_31_eq_mod, and_2047_eq_mod, Nat.shiftLeft_eq]
  have e5 : (2 : Nat) ^ 5 = 32 := by norm_num
  rw [Nat.shiftRight_eq_div_pow, e5]
  rw [mul32_or_eq_add _ _ (Nat.mod_lt _ (by norm_num))]
  omega

lemma hdr_with_type_eq (h v : Nat) :
    CommandHeader.with_type h v = 256 * (h / 256 % 256) + (32 * (v % 8) + h % 32) := by
  rw [CommandHeader.with_type]
  have hm : (0xFF1F : Nat) = (255 <<< 8) ||| 31 := by decide
  have h1 : (0x1F : Nat) = 31 := by norm_num
  have h2 : (0x07 : Nat) = 7 := by norm_num
  rw [hm, h1, h2, Nat.and_or_distrib_left, and_mask_shiftLeft, and_31_eq_mod,
    and_255_eq_mod, and_7_eq_mod, Nat.shiftLeft_eq, Nat.shiftLeft_eq,
    Nat.shiftRight_eq_div_pow]
  have e8 : (2 : Nat) ^ 8 = 256 := by norm_num
  have e5 : (2 : Nat) ^ 5 = 32 := by norm_num
  rw [e8, e5, Nat.or_assoc]
  have hinner : (h % 32) ||| (v % 8 * 32) = v % 8 * 32 + h % 32 := by
    rw [Nat.or_comm, mul32_or_eq_add _ _ (Nat.mod_lt _ (by norm_num))]
  rw [hinner]
  have houter : (h / 256 % 256 * 256) ||| (v % 8 * 32 + h % 32) =
      h / 256 % 256 * 256 + (v % 8 * 32 + h % 32) := by
    apply mul256_or_eq_add
    have hv8 : v % 8 < 8 := Nat.mod_lt _ (by norm_num)
    have hh32 : h % 32 < 32 := Nat.mod_lt _ (by norm_num)
    omega
  rw [houter]
  omega

lemma hdr_cmd0_eq (h : Nat) : CommandHeader.cmd0 h = h % 256 := by
  rw [CommandHeader.cmd0]
  have h1 : (0x00FF : Nat) = 255 := by norm_num
  rw [h1, and_255_eq_mod]

lemma hdr_id_eq (h : Nat) : CommandHeader.id h = h / 256 := by
  rw [CommandHeader.id, Nat.shiftRight_eq_div_pow]

lemma hdr_subsystem_eq (h : Nat) :
    CommandHeader.subsystem h = Subsystem.ofNat? (h % 32) := by
  rw [CommandHeader.subsystem, hdr_cmd0_eq]
  have h1 : (0x1F : Nat) = 31 := by norm_num
  rw [h1, and_31_eq_mod]
  congr 1
  omega

lemma hdr_type_eq (h : Nat) :
    CommandHeader.type h = CommandType.ofNat? (h / 32 % 8) := by
  rw [CommandHeader.type, hdr_cmd0_eq, Nat.shiftRight_eq_div_pow]
  have e5 : (2 : Nat) ^ 5 = 32 := by norm_num
  rw [e5]
  congr 1
  omega

lemma wellTyped_isinstance {v : RawValue} {pt : ParamType}
    (h : wellTyped v pt = true) : isinstance v pt = true := by
  cases v <;> cases pt <;> simp_all [wellTyped, isinstance]

lemma deserializeP_isinstance {pt : ParamType} {data : List Nat} {v : RawValue}
    {rest : List Nat} (h : deserializeP pt data = some (v, rest)) :
    isinstance v pt = true := by
  unfold deserializeP at h
  split at h <;> try (split at h)
  all_goals try (simp at h)
  all_goals obtain ⟨h1, h2⟩ := h
  all_goals subst h1
  all_goals rfl

lemma ser_deser {v : RawValue} {pt : ParamType} (hwt : wellTyped v pt = true)
    (rest : List Nat) :
    ∃ out, serializeRV v = some out ∧ deserializeP pt (out ++ rest) = some (v, rest) := by
  cases v with
  | rUint8 n =>
    cases pt <;> simp [wellTyped] at hwt
    refine ⟨[n.toNat], ?_, ?_⟩
    · simp [serializeRV, hwt.1, hwt.2]
    · simp [deserializeP]
      omega
  | rUint16 n =>
    cases pt <;> simp [wellTyped] at hwt
    refine ⟨[n.toNat % 256, n.toNat / 256], ?_, ?_⟩
    · simp [serializeRV, hwt.1, hwt.2]
    · simp [deserializeP]
      omega
  | rUint32 n =>
    cases pt <;> simp [wellTyped] at hwt
    refine ⟨[n.toNat % 256, n.toNat / 256 % 256, n.toNat / 65536 % 256,
      n.toNat / 16777216], ?_, ?_⟩
    · simp [serializeRV, hwt.1, hwt.2]
    · simp [deserializeP]
      omega
  | rEnumU8 n =>
    cases pt <;> simp [wellTyped] at hwt
    refine ⟨[n.toNat], ?_, ?_⟩
    · simp [serializeRV, hwt.1, hwt.2]
    · simp [deserializeP]
      omega
  | rShortBytes bs =>
    cases pt <;> simp [wellTyped] at hwt
    refine ⟨bs.length :: bs, ?_, ?_⟩
    · simp [serializeRV, hwt.1]
    · simp [deserializeP, List.take_left, List.drop_left]
  | rPlainInt n => cases pt <;> simp [wellTyped] at hwt
  | rBytes bs => cases pt <;> simp [wellTyped] at hwt
  | rOther => cases pt <;> simp [wellTyped] at hwt

lemma roundtrip_bound :
    ∀ (bound : List (Param × Option RawValue)) (rest : List Nat),
    (∀ pv ∈ bound, ∃ v, pv.2 = some v ∧ wellTyped v pv.1.type = true) →
    ∃ data, serializeBound bound = some data ∧
      deserializeSeq (bound.map Prod.fst) (data ++ rest) =
        some (bound.map (fun pv => (pv.1.name, pv.2.getD .rOther)), rest) := by
  intro bound
  induction bound with
  | nil => intro rest _; exact ⟨[], rfl, rfl⟩
  | cons pv tl ih =>
    intro rest hall
    obtain ⟨v, hv, hwt⟩ := hall pv (by simp)
    obtain ⟨dataTl, hserTl, hdesTl⟩ := ih rest (fun q hq => hall q (by simp [hq]))
    obtain ⟨out, hout, hdes⟩ := ser_deser hwt (dataTl ++ rest)
    obtain ⟨p, v?⟩ := pv
    simp at hv
    subst hv
    refine ⟨out ++ dataTl, ?_, ?_⟩
    · simp [serializeBound, hout, hserTl]
    · simp only [List.map_cons, List.append_assoc, deserializeSeq, hdes, hdesTl,
        Option.bind_eq_bind, Option.some_bind]
      simp

lemma lookupParam_cons (q : String × RawValue) (ps : List (String × RawValue))
    (name : String) :
    lookupParam (q :: ps) name = if q.1 = name then some q.2 else lookupParam ps name := by
  by_cases h : q.1 = name <;> simp [lookupParam, List.find?_cons, h]

lemma aligned_lookup :
    ∀ (sch : List Param) (ps : List (String × RawValue)),
    ps.map (fun q => q.1) = sch.map (fun p => p.name) →
    (sch.map (fun p => p.name)).Nodup →
    sch.map (fun p => (p, lookupParam ps p.name)) = sch.zip (ps.map (fun q => some q.2)) ∧
    (∀ p ∈ sch, ∃ q, q ∈ ps ∧ lookupParam ps p.name = some q.2 ∧ (p, q) ∈ sch.zip ps) := by
  intro sch
  induction sch with
  | nil => intro ps _ _; simp
  | cons p tl ih =>
    intro ps hnames hnd
    cases ps with
    | nil => simp at hnames
    | cons q qs =>
      simp only [List.map_cons, List.cons.injEq] at hnames
      obtain ⟨hq1, hqs⟩ := hnames
      simp only [List.map_cons, List.nodup_cons] at hnd
      obtain ⟨hnotin, hnd'⟩ := hnd
      have hcons : ∀ p' ∈ tl, lookupParam (q :: qs) p'.name = lookupParam qs p'.name := by
        intro p' hp'
        have hmem : p'.name ∈ tl.map (fun p'' => p''.name) :=
          List.mem_map_of_mem _ hp'
        have hne : q.1 ≠ p'.name := by
          rw [hq1]
          intro hcontra
          rw [hcontra] at hnotin
          exact hnotin hmem
        rw [lookupParam_cons, if_neg hne]
      obtain ⟨ihmap, ihlook⟩ := ih qs hqs hnd'
      constructor
      · simp only [List.map_cons, List.zip_cons_cons]
        have hhead : lookupParam (q :: qs) p.name = some q.2 := by
          rw [lookupParam_cons, if_pos hq1]
        rw [hhead]
        congr 1
        rw [List.map_congr_left (fun p' hp' => by rw [hcons p' hp'])]
        exact ihmap
      · intro p' hp'
        rcases List.mem_cons.mp hp' with hp' | hp'
        · subst hp'
          refine ⟨q, by simp, ?_, by simp⟩
          rw [lookupParam_cons, if_pos hq1]
        · obtain ⟨q', hq'mem, hq'look, hq'zip⟩ := ihlook p' hp'
          refine ⟨q', by simp [hq'mem], ?_, by simp [hq'zip]⟩
          rw [hcons p' hp']
          exact hq'look

lemma bindParams_isinstance (ps : List (String × RawValue)) :
    ∀ sch : List Param,
    (∀ p ∈ sch, ∃ v, lookupParam ps p.name = some v ∧ isinstance v p.type = true) →
    bindParams false ps sch = .ok (sch.map (fun p => (p, lookupParam ps p.name))) := by
  intro sch
  induction sch with
  | nil => intro _; rfl
  | cons p tl ih =>
    intro hall
    obtain ⟨v, hv, hinst⟩ := hall p (by simp)
    have htl := ih (fun p' hp' => hall p' (by simp [hp']))
    simp [bindParams, bindOne, hv, hinst, htl, Bind.bind, Except.bind]

lemma any_not_contains_self (l : List String) :
    (l.any fun n => !(l.contains n)) = false := by
  rw [List.any_eq_false]
  intro n hn
  simp [hn]

lemma initCommand_aligned (cls : CommandClass) (ps : List (String × RawValue))
    (hnames : ps.map (fun q => q.1) = cls.schema.parameters.map (fun p => p.name))
    (hnd : (cls.schema.parameters.map (fun p => p.name)).Nodup)
    (hzip : ∀ pq ∈ cls.schema.parameters.zip ps, isinstance pq.2.2 pq.1.type = true) :
    initCommand cls false ps =
      .ok ⟨cls, cls.schema.parameters.zip (ps.map (fun q => some q.2))⟩ := by
  obtain ⟨hmapzip, hlook⟩ := aligned_lookup cls.schema.parameters ps hnames hnd
  have hbind := bindParams_isinstance ps cls.schema.parameters (fun p hp => by
    obtain ⟨q, hqmem, hlookq, hzmem⟩ := hlook p hp
    exact ⟨q.2, hlookq, hzip (p, q) hzmem⟩)
  rw [initCommand]
  simp only [hnames, any_not_contains_self, Bool.and_false, Bool.false_and,
    Bool.not_false, Bool.true_and, if_false, Bool.false_eq_true, ite_false]
  rw [hbind]
  simp only [Except.map]
  rw [hmapzip]

lemma deserializeSeq_aligned :
    ∀ (sch : List Param) (data : List Nat) (ps : List (String × RawValue))
      (rest : List Nat),
    deserializeSeq sch data = some (ps, rest) →
    ps.map (fun q => q.1) = sch.map (fun p => p.name) ∧
    ∀ pq ∈ sch.zip ps, isinstance pq.2.2 pq.1.type = true := by
  intro sch
  induction sch with
  | nil =>
    intro data ps rest h
    simp [deserializeSeq] at h
    simp [h.1]
  | cons p tl ih =>
    intro data ps rest h
    rw [deserializeSeq] at h
    cases hd : deserializeP p.type data with
    | none => rw [hd] at h; simp at h
    | some vr =>
      obtain ⟨v, r⟩ := vr
      rw [hd] at h
      simp only [Option.bind_eq_bind, Option.some_bind] at h
      cases hs : deserializeSeq tl r with
      | none => rw [hs] at h; simp at h
      | some vsr =>
        obtain ⟨vs, r'⟩ := vsr
        rw [hs] at h
        simp only [Option.some_bind, Option.some.injEq, Prod.mk.injEq] at h
        obtain ⟨h1, h2⟩ := h
        subst h1
        obtain ⟨ha, hb⟩ := ih r vs r' hs
        refine ⟨by simp [ha], ?_⟩
        intro pq hpq
        rw [List.zip_cons_cons] at hpq
        rcases List.mem_cons.mp hpq with hpq | hpq
        · subst hpq
          exact deserializeP_isinstance hd
        · exact hb pq hpq

/-- C1: Command/frame round-trip — serializing a well-formed, fully-bound
command instance with `to_frame` and deserializing the resulting frame
with `from_frame` yields an equal instance. -/
theorem C1_command_frame_roundtrip (c : CommandBase)
    (hb : c.bound.map Prod.fst = c.cls.schema.parameters)
    (hnd : (c.cls.schema.parameters.map (fun p => p.name)).Nodup)
    (hv : ∀ pv ∈ c.bound, ∃ v, pv.2 = some v ∧ wellTyped v pv.1.type = true) :
    ∃ f, c.to_frame = Except.ok f ∧ CommandBase.from_frame c.cls f = Except.ok c := by
  obtain ⟨data, hser, hdes⟩ := roundtrip_bound c.bound [] hv
  rw [List.append_nil] at hdes
  have hany : (c.bound.any fun pv => pv.2.isNone) = false := by
    rw [List.any_eq_false]
    intro pv hm
    obtain ⟨v, hv2, -⟩ := hv pv hm
    simp [hv2]
  refine ⟨⟨c.cls.header, data⟩, by simp [CommandBase.to_frame, hany, hser], ?_⟩
  rw [CommandBase.from_frame]
  rw [if_neg (by simp)]
  rw [← hb]
  simp only [hdes]
  rw [if_neg (by simp)]
  have hnames : (c.bound.map (fun pv => (pv.1.name, pv.2.getD .rOther))).map (fun q => q.1) =
      c.cls.schema.parameters.map (fun p => p.name) := by
    rw [← hb]
    simp [List.map_map, Function.comp]
  have hzip : ∀ pq ∈ c.cls.schema.parameters.zip
      (c.bound.map (fun pv => (pv.1.name, pv.2.getD .rOther))),
      isinstance pq.2.2 pq.1.type = true := by
    rw [← hb, List.zip_map']
    intro pq hpq
    obtain ⟨pv, hpv, hpq2⟩ := List.mem_map.mp hpq
    obtain ⟨v, hv2, hwt⟩ := hv pv hpv
    rw [← hpq2]
    simp only [hv2, Option.getD_some]
    exact wellTyped_isinstance hwt
  rw [initCommand_aligned c.cls _ hnames hnd hzip]
  congr 1
  rw [← hb, List.map_map, List.zip_map']
  have : c.bound.map (fun pv => (Prod.fst pv, ((fun q => some q.2) ∘
      fun pv => (pv.1.name, pv.2.getD RawValue.rOther)) pv)) =
      c.bound.map (fun pv => (pv.1, pv.2)) := by
    apply List.map_congr_left
    intro pv hpv
    obtain ⟨v, hv2, -⟩ := hv pv hpv
    simp [Function.comp, hv2]
  rw [this]
  simp

lemma matchesValues_iff :
    ∀ (es as' : List (Option RawValue)), es.length = as'.length →
    (matchesValues es as' = true ↔
      ∀ (i : Nat) (v : RawValue), es[i]? = some (some v) → as'[i]? = some (some v)) := by
  intro es
  induction es with
  | nil =>
    intro as' h
    simp [matchesValues]
  | cons e es2 ih =>
    intro as' h
    cases as' with
    | nil => simp at h
    | cons a as2 =>
      simp only [List.length_cons, Nat.add_right_cancel_iff] at h
      simp only [matchesValues, Bool.and_eq_true]
      constructor
      · intro hm i v hi
        obtain ⟨he, hrest⟩ := hm
        cases i with
        | zero =>
          simp only [List.getElem?_cons_zero, Option.some.injEq] at hi
          subst hi
          simp only [decide_eq_true_eq] at he
          simp [he]
        | succ i =>
          simp only [List.getElem?_cons_succ] at hi ⊢
          exact (ih as2 h).mp hrest i v hi
      · intro hall
        refine ⟨?_, (ih as2 h).mpr (fun i v hi => by
          have := hall (i + 1) v (by simpa using hi)
          simpa using this)⟩
        cases e with
        | none => rfl
        | some v =>
          have := hall 0 v (by simp)
          simp only [List.getElem?_cons_zero, Option.some.injEq] at this
          simp [this]

/-- C2: Partial matching — for two instances of the same class, `matches`
holds iff every bound (non-wildcard) parameter of the first equals the
corresponding parameter of the second; for instances of different classes
it is false. -/
theorem C2_partial_matching (a b : CommandBase)
    (ha : a.bound.map Prod.fst = a.cls.schema.parameters)
    (hb : b.bound.map Prod.fst = b.cls.schema.parameters) :
    (a.cls ≠ b.cls → a.matches b = false) ∧
    (a.cls = b.cls →
      (a.matches b = true ↔
        ∀ (i : Nat) (p : Param) (v : RawValue),
          a.bound[i]? = some (p, some v) → b.bound[i]? = some (p, some v))) := by
  constructor
  · intro hne
    simp [CommandBase.matches, hne]
  · intro hcls
    rw [CommandBase.matches, if_neg (by simp [hcls])]
    have hlen : a.bound.length = b.bound.length := by
      have h1 := congrArg List.length ha
      have h2 := congrArg List.length hb
      rw [List.length_map] at h1 h2
      rw [h1, h2, hcls]
    rw [matchesValues_iff _ _ (by simp [hlen])]
    constructor
    · intro hvals i p v hi
      have hv : (a.bound.map (fun pv => pv.2))[i]? = some (some v) := by
        rw [List.getElem?_map, hi]
        rfl
      have hb2 := hvals i v hv
      rw [List.getElem?_map] at hb2
      cases hbi : b.bound[i]? with
      | none => rw [hbi] at hb2; simp at hb2
      | some pv =>
        rw [hbi] at hb2
        simp only [Option.map_some', Option.some.injEq] at hb2
        have hfst : (a.bound.map Prod.fst)[i]? = (b.bound.map Prod.fst)[i]? := by
          rw [ha, hb, hcls]
        rw [List.getElem?_map, List.getElem?_map, hi, hbi] at hfst
        simp only [Option.map_some', Option.some.injEq] at hfst
        obtain ⟨p', v'⟩ := pv
        simp only at hb2 hfst
        rw [hb2, hfst]
    · intro hpairs i v hi
      cases hai : a.bound[i]? with
      | none => rw [List.getElem?_map, hai] at hi; simp at hi
      | some pv =>
        rw [List.getElem?_map, hai] at hi
        simp only [Option.map_some', Option.some.injEq] at hi
        have hstep := hpairs i pv.1 v (by rw [hai, ← hi])
        rw [List.getElem?_map, hstep]
        rfl

lemma serializeBound_eq_flatten :
    ∀ (bound : List (Param × Option RawValue)) (vs : List RawValue)
      (outs : List (List Nat)),
    bound.map (fun pv => pv.2) = vs.map some →
    vs.map serializeRV = outs.map some →
    serializeBound bound = some outs.flatten := by
  intro bound
  induction bound with
  | nil =>
    intro vs outs h1 h2
    cases vs with
    | cons v vt => simp at h1
    | nil =>
      cases outs with
      | cons o ot => simp at h2
      | nil => rfl
  | cons pv tl ih =>
    intro vs outs h1 h2
    cases vs with
    | nil => simp at h1
    | cons v vt =>
      cases outs with
      | nil => simp at h2
      | cons o ot =>
        simp only [List.map_cons, List.cons.injEq] at h1 h2
        obtain ⟨h1a, h1b⟩ := h1
        obtain ⟨h2a, h2b⟩ := h2
        obtain ⟨p, v?⟩ := pv
        simp only at h1a
        subst h1a
        simp [serializeBound, h2a, ih vt ot h1b h2b]

/-- C4 (amended): an instance with any wildcard parameter never
serializes; a fully-bound instance whose bound values all serialize
produces the frame whose payload is the concatenation of the parameter
serializations in schema order. -/
theorem C4_to_frame :
    (∀ c : CommandBase, (∃ pv ∈ c.bound, pv.2 = none) →
        c.to_frame = Except.error CmdError.partialFrame) ∧
    (∀ (c : CommandBase) (vs : List RawValue) (outs : List (List Nat)),
        c.bound.map (fun pv => pv.2) = vs.map some →
        vs.map serializeRV = outs.map some →
        c.to_frame = Except.ok ⟨c.cls.header, outs.flatten⟩) := by
  constructor
  · intro c h
    obtain ⟨pv, hm, hn⟩ := h
    have hany : (c.bound.any fun pv => pv.2.isNone) = true :=
      List.any_eq_true.mpr ⟨pv, hm, by simp [hn]⟩
    simp [CommandBase.to_frame, hany]
  · intro c vs outs h1 h2
    have hser := serializeBound_eq_flatten c.bound vs outs h1 h2
    have hany : (c.bound.any fun pv => pv.2.isNone) = false := by
      rw [List.any_eq_false]
      intro pv hm
      have hmem : pv.2 ∈ vs.map some := h1 ▸ List.mem_map_of_mem _ hm
      obtain ⟨v, -, hv⟩ := List.mem_map.mp hmem
      simp [← hv]
    simp [CommandBase.to_frame, hany, hser]

/-- A sample command class with a `uint8` parameter and a `ShortBytes`
parameter, in the shape of the catalog's `STATUS_SCHEMA`-style classes. -/
def demoCls : CommandClass :=
  ⟨0x6101, ⟨[⟨"Status", .ptUint8⟩, ⟨"Value", .ptShortBytes⟩]⟩⟩

/-- A fully-bound instance of `demoCls`. -/
def demoInst : CommandBase :=
  ⟨demoCls, [(⟨"Status", .ptUint8⟩, some (.rUint8 0)),
             (⟨"Value", .ptShortBytes⟩, some (.rShortBytes [1, 2]))]⟩

/-- A partial instance of `demoCls` with the second parameter a wildcard. -/
def demoMatcher : CommandBase :=
  ⟨demoCls, [(⟨"Status", .ptUint8⟩, some (.rUint8 0)),
             (⟨"Value", .ptShortBytes⟩, none)]⟩

/-- A second sample class with a single `uint8` parameter. -/
def demoCls2 : CommandClass := ⟨0x6102, ⟨[⟨"Status", .ptUint8⟩]⟩⟩

/-- An instance of `demoCls2` holding a `uint8`-typed value that is out of
range (constructible, since fixed-width integers range-check only at
serialize time). -/
def demoBad : CommandBase :=
  ⟨demoCls2, [(⟨"Status", .ptUint8⟩, some (.rUint8 400))]⟩

/-- Witness for C1 at a concrete instance. -/
theorem C1_witness :
    ∃ f, demoInst.to_frame = Except.ok f ∧
      CommandBase.from_frame demoInst.cls f = Except.ok demoInst :=
  C1_command_frame_roundtrip demoInst (by decide) (by decide)
    (by
      intro pv hm
      fin_cases hm
      · exact ⟨.rUint8 0, rfl, by decide⟩
      · exact ⟨.rShortBytes [1, 2], rfl, by decide⟩)

/-- Witness for C2 at concrete instances of different classes. -/
theorem C2_witness : demoMatcher.matches demoBad = false :=
  (C2_partial_matching demoMatcher demoBad (by decide) (by decide)).1 (by decide)

/-- Witness for C4 at a concrete fully-bound instance. -/
theorem C4_witness : demoInst.to_frame = Except.ok ⟨demoInst.cls.header, [0, 2, 1, 2]⟩ :=
  C4_to_frame.2 demoInst [.rUint8 0, .rShortBytes [1, 2]] [[0], [2, 1, 2]]
    (by decide) (by decide)

/-- Counterexample for C4 as stated: `demoBad` is fully bound (no
wildcards), is constructible through `initCommand`, and yet `to_frame`
fails, because its `uint8` value 400 overflows at serialize time. -/
theorem C4_counterexample :
    initCommand demoCls2 false [("Status", RawValue.rUint8 400)] = Except.ok demoBad ∧
    (demoBad.bound.all fun pv => pv.2.isSome) = true ∧
    demoBad.to_frame = Except.error CmdError.notSerializable := by
  refine ⟨rfl, by decide, rfl⟩

lemma lookup_none_not_mem {params : List (String × RawValue)} {name : String}
    (hnone : lookupParam params name = none) :
    name ∉ params.map (fun q => q.1) := by
  intro hmem
  obtain ⟨q, hq, hqn⟩ := List.mem_map.mp hmem
  have hsome : (params.find? (fun q' => decide (q'.1 = name))).isSome :=
    List.find?_isSome.mpr ⟨q, hq, by simp [hqn]⟩
  rw [lookupParam, Option.map_eq_none'] at hnone
  rw [hnone] at hsome
  simp at hsome

lemma initCommand_missing (cls : CommandClass) (params : List (String × RawValue))
    (hmiss : ∃ p ∈ cls.schema.parameters, lookupParam params p.name = none) :
    initCommand cls false params = Except.error CmdError.missingParams := by
  rw [initCommand]
  have hc : ((cls.schema.parameters.map fun p => p.name).any fun n =>
      !((params.map fun q => q.1).contains n)) = true := by
    obtain ⟨p, hp, hnone⟩ := hmiss
    rw [List.any_eq_true]
    refine ⟨p.name, List.mem_map_of_mem _ hp, ?_⟩
    simp [lookup_none_not_mem hnone]
  have hcond : (!false && ((cls.schema.parameters.map fun p => p.name).any fun n =>
      !((params.map fun q => q.1).contains n))) = true := by simpa using hc
  rw [if_pos hcond]

lemma bindParams_error_of_mem :
    ∀ (flag : Bool) (ps : List (String × RawValue)) (sch : List Param) (p : Param),
    p ∈ sch → ∀ e, bindOne flag ps p = .error e →
    ∃ e', bindParams flag ps sch = .error e' := by
  intro flag ps sch
  induction sch with
  | nil => intro p hp; cases hp
  | cons q tl ih =>
    intro p hp e he
    rcases List.mem_cons.mp hp with h | h
    · subst h
      exact ⟨e, by simp [bindParams, he, Bind.bind, Except.bind]⟩
    · cases hq : bindOne flag ps q with
      | error e2 => exact ⟨e2, by simp [bindParams, hq, Bind.bind, Except.bind]⟩
      | ok v? =>
        obtain ⟨e', he'⟩ := ih p h e he
        exact ⟨e', by simp [bindParams, hq, he', Bind.bind, Except.bind]⟩

lemma bindParams_ok_mem :
    ∀ (flag : Bool) (ps : List (String × RawValue)) (sch : List Param)
      (bound : List (Param × Option RawValue)),
    bindParams flag ps sch = .ok bound →
    ∀ pv ∈ bound, pv.1 ∈ sch ∧ bindOne flag ps pv.1 = .ok pv.2 := by
  intro flag ps sch
  induction sch with
  | nil =>
    intro bound h pv hpv
    simp only [bindParams] at h
    obtain rfl : ([] : List (Param × Option RawValue)) = bound := by
      simpa using h
    cases hpv
  | cons q tl ih =>
    intro bound h pv hpv
    cases hq : bindOne flag ps q with
    | error e => simp [bindParams, hq, Bind.bind, Except.bind] at h
    | ok v? =>
      cases hrest : bindParams flag ps tl with
      | error e => simp [bindParams, hq, hrest, Bind.bind, Except.bind] at h
      | ok bnd =>
        simp only [bindParams, hq, hrest, Bind.bind, Except.bind,
          Except.ok.injEq] at h
        subst h
        rcases List.mem_cons.mp hpv with hpv | hpv
        · subst hpv
          exact ⟨by simp, by simp [hq]⟩
        · obtain ⟨h1, h2⟩ := ih bnd hrest pv hpv
          exact ⟨by simp [h1], h2⟩

lemma bindOne_ok_some {flag : Bool} {ps : List (String × RawValue)} {p : Param}
    {v0 w : RawValue} (hl : lookupParam ps p.name = some v0)
    (h : bindOne flag ps p = .ok (some w)) :
    (w = v0 ∧ isinstance v0 p.type = true) ∨
    (isinstance v0 p.type = false ∧ isIntValue v0 = true ∧ isIntType p.type = true ∧
      p.type ≠ .ptEnumUint8 ∧ w = intCoerce p.type (intVal v0) ∧
      (serializeRV w).isSome = true) ∨
    (∃ bs, v0 = .rBytes bs ∧ p.type = .ptShortBytes ∧ w = .rShortBytes bs ∧
      (serializeRV w).isSome = true) := by
  rw [bindOne] at h
  simp only [hl] at h
  by_cases hi : isinstance v0 p.type = true
  · rw [if_pos hi] at h
    simp only [Except.ok.injEq, Option.some.injEq] at h
    exact Or.inl ⟨h.symm, hi⟩
  · rw [if_neg hi] at h
    rw [Bool.not_eq_true] at hi
    by_cases hg : (isIntValue v0 && isIntType p.type && !(p.type == ParamType.ptEnumUint8)) = true
    · rw [if_pos hg] at h
      simp only [Bool.and_eq_true, Bool.not_eq_eq_eq_not, Bool.not_true, beq_eq_false_iff_ne,
        ne_eq] at hg
      cases hs : serializeRV (intCoerce p.type (intVal v0)) with
      | none => rw [hs] at h; cases h
      | some out =>
        rw [hs] at h
        simp only [Except.ok.injEq, Option.some.injEq] at h
        refine Or.inr (Or.inl ⟨hi, hg.1.1, hg.1.2, hg.2, h.symm, ?_⟩)
        rw [← h, hs]
        rfl
    · rw [if_neg hg] at h
      cases v0 <;> cases hpt : p.type <;> rw [hpt] at h <;> try (simp at h)
      rename_i bs
      cases hs : serializeRV (.rShortBytes bs) with
      | none => rw [hs] at h; cases h
      | some out =>
        rw [hs] at h
        simp only [Except.ok.injEq, Option.some.injEq] at h
        refine Or.inr (Or.inr ⟨bs, rfl, rfl, h.symm, ?_⟩)
        rw [← h, hs]
        rfl

lemma bindOne_typeMismatch {flag : Bool} {ps : List (String × RawValue)} {p : Param}
    {v0 : RawValue} (hl : lookupParam ps p.name = some v0)
    (hni : isinstance v0 p.type = false)
    (hng : ¬(isIntValue v0 = true ∧ isIntType p.type = true ∧ p.type ≠ .ptEnumUint8))
    (hnb : ¬∃ bs, v0 = .rBytes bs ∧ p.type = .ptShortBytes) :
    bindOne flag ps p = .error .typeMismatch := by
  rw [bindOne]
  simp only [hl]
  rw [if_neg (by simp [hni])]
  have hgf : (isIntValue v0 && isIntType p.type && !(p.type == ParamType.ptEnumUint8)) = false := by
    by_contra hc
    rw [Bool.not_eq_false] at hc
    apply hng
    simpa only [Bool.and_eq_true, Bool.not_eq_eq_eq_not, Bool.not_true,
      beq_eq_false_iff_ne, ne_eq, and_assoc] using hc
  rw [if_neg (by simp [hgf])]
  cases v0 <;> cases hpt : p.type <;> try rfl
  rename_i bs
  exact absurd ⟨bs, rfl, hpt⟩ hnb

lemma bindOne_invalidValue {flag : Bool} {ps : List (String × RawValue)} {p : Param}
    {v0 : RawValue} (hl : lookupParam ps p.name = some v0)
    (hni : isinstance v0 p.type = false)
    (hg1 : isIntValue v0 = true) (hg2 : isIntType p.type = true)
    (hg3 : p.type ≠ .ptEnumUint8)
    (hs : serializeRV (intCoerce p.type (intVal v0)) = none) :
    bindOne flag ps p = .error .invalidValue := by
  rw [bindOne]
  simp only [hl]
  rw [if_neg (by simp [hni]), if_pos (by simp [hg1, hg2, hg3])]
  simp only [hs]

lemma initCommand_isOk_false_of_bindOne_error (cls : CommandClass) (flag : Bool)
    (params : List (String × RawValue)) (p : Param)
    (hp : p ∈ cls.schema.parameters) (e : CmdError)
    (he : bindOne flag params p = .error e) :
    (initCommand cls flag params).isOk = false := by
  rw [initCommand]
  by_cases h1 : (!flag && ((cls.schema.parameters.map fun p => p.name).any fun n =>
      !((params.map fun q => q.1).contains n))) = true
  · rw [if_pos h1]; rfl
  · rw [if_neg h1]
    by_cases h2 : ((params.map fun q => q.1).any fun n =>
        !((cls.schema.parameters.map fun p => p.name).contains n)) = true
    · rw [if_pos h2]; rfl
    · rw [if_neg h2]
      obtain ⟨e', he'⟩ := bindParams_error_of_mem flag params cls.schema.parameters p hp e he
      rw [he']
      rfl

lemma initCommand_ok_inv {cls : CommandClass} {flag : Bool}
    {params : List (String × RawValue)} {c : CommandBase}
    (h : initCommand cls flag params = .ok c) :
    c.cls = cls ∧ bindParams flag params cls.schema.parameters = .ok c.bound := by
  rw [initCommand] at h
  by_cases h1 : (!flag && ((cls.schema.parameters.map fun p => p.name).any fun n =>
      !((params.map fun q => q.1).contains n))) = true
  · rw [if_pos h1] at h; cases h
  · rw [if_neg h1] at h
    by_cases h2 : ((params.map fun q => q.1).any fun n =>
        !((cls.schema.parameters.map fun p => p.name).contains n)) = true
    · rw [if_pos h2] at h; cases h
    · rw [if_neg h2] at h
      cases hb : bindParams flag params cls.schema.parameters with
      | error e => rw [hb] at h; cases h
      | ok bound =>
        rw [hb] at h
        simp only [Except.map, Except.ok.injEq] at h
        subst h
        exact ⟨rfl, rfl⟩

/-- C3 (amended): constructing a non-partial instance fails when a
declared parameter is missing; a supplied value must be an instance of
the declared type, with exactly two coercions permitted — an
integer-typed value into any integer parameter type that is not an
enumeration (range-checked eagerly, by serializing at construction) and a
bare byte string into the length-prefixed byte-string type — and any
other mismatch fails. -/
theorem C3_construction_validation :
    ∀ (cls : CommandClass) (params : List (String × RawValue)),
    ((∃ p ∈ cls.schema.parameters, lookupParam params p.name = none) →
        initCommand cls false params = Except.error CmdError.missingParams) ∧
    (∀ (flag : Bool) (p : Param) (v0 : RawValue), p ∈ cls.schema.parameters →
        lookupParam params p.name = some v0 →
        isinstance v0 p.type = false →
        ¬(isIntValue v0 = true ∧ isIntType p.type = true ∧ p.type ≠ .ptEnumUint8) →
        ¬(∃ bs, v0 = .rBytes bs ∧ p.type = .ptShortBytes) →
        (initCommand cls flag params).isOk = false) ∧
    (∀ (flag : Bool) (p : Param) (v0 : RawValue), p ∈ cls.schema.parameters →
        lookupParam params p.name = some v0 →
        isinstance v0 p.type = false →
        isIntValue v0 = true → isIntType p.type = true → p.type ≠ .ptEnumUint8 →
        serializeRV (intCoerce p.type (intVal v0)) = none →
        (initCommand cls flag params).isOk = false) ∧
    (∀ (flag : Bool) (c : CommandBase), initCommand cls flag params = Except.ok c →
        ∀ pv ∈ c.bound, ∀ v0, lookupParam params pv.1.name = some v0 →
        ∀ w, pv.2 = some w →
        (w = v0 ∧ isinstance v0 pv.1.type = true) ∨
        (isinstance v0 pv.1.type = false ∧ isIntValue v0 = true ∧
          isIntType pv.1.type = true ∧ pv.1.type ≠ .ptEnumUint8 ∧
          w = intCoerce pv.1.type (intVal v0) ∧ (serializeRV w).isSome = true) ∨
        (∃ bs, v0 = .rBytes bs ∧ pv.1.type = .ptShortBytes ∧ w = .rShortBytes bs ∧
          (serializeRV w).isSome = true)) := by
  intro cls params
  refine ⟨initCommand_missing cls params, ?_, ?_, ?_⟩
  · intro flag p v0 hp hl hni hng hnb
    exact initCommand_isOk_false_of_bindOne_error cls flag params p hp _
      (bindOne_typeMismatch hl hni hng hnb)
  · intro flag p v0 hp hl hni hg1 hg2 hg3 hs
    exact initCommand_isOk_false_of_bindOne_error cls flag params p hp _
      (bindOne_invalidValue hl hni hg1 hg2 hg3 hs)
  · intro flag c hok pv hpv v0 hl w hw
    obtain ⟨-, hbind⟩ := initCommand_ok_inv hok
    obtain ⟨hmem, hbo⟩ := bindParams_ok_mem flag params cls.schema.parameters c.bound hbind pv hpv
    rw [hw] at hbo
    exact bindOne_ok_some hl hbo

/-- Witness for C3 at a concrete class with no parameters supplied. -/
theorem C3_witness :
    initCommand demoCls2 false [] = Except.error CmdError.missingParams :=
  (C3_construction_validation demoCls2 []).1 ⟨⟨"Status", .ptUint8⟩, by decide, rfl⟩

/-- Counterexample for C3 as stated: a value of the wider `uint16` class
supplied for a narrower `uint8` parameter is not an instance of the
parameter type, yet construction succeeds by coercion instead of failing
with a type-error. -/
theorem C3_counterexample :
    isinstance (RawValue.rUint16 5) ParamType.ptUint8 = false ∧
    initCommand demoCls2 false [("Status", RawValue.rUint16 5)] =
      Except.ok ⟨demoCls2, [(⟨"Status", .ptUint8⟩, some (RawValue.rUint8 5))]⟩ :=
  ⟨rfl, rfl⟩

/-- C5: `from_frame` fails on a header mismatch, fails when bytes remain
after the last schema parameter, and otherwise returns the instance whose
parameters were read in schema order. -/
theorem C5_from_frame (cls : CommandClass) (f : Frame)
    (hnd : (cls.schema.parameters.map (fun p => p.name)).Nodup) :
    (f.header ≠ cls.header →
        CommandBase.from_frame cls f = Except.error CmdError.wrongHeader) ∧
    (∀ ps rest, f.header = cls.header →
        deserializeSeq cls.schema.parameters f.data = some (ps, rest) → rest ≠ [] →
        CommandBase.from_frame cls f = Except.error CmdError.unparsedData) ∧
    (∀ ps, f.header = cls.header →
        deserializeSeq cls.schema.parameters f.data = some (ps, []) →
        CommandBase.from_frame cls f =
          Except.ok ⟨cls, cls.schema.parameters.zip (ps.map (fun q => some q.2))⟩) := by
  refine ⟨?_, ?_, ?_⟩
  · intro hne
    rw [CommandBase.from_frame, if_pos hne]
  · intro ps rest hh hdes hne
    rw [CommandBase.from_frame, if_neg (by simp [hh])]
    simp only [hdes]
    rw [if_pos hne]
  · intro ps hh hdes
    rw [CommandBase.from_frame, if_neg (by simp [hh])]
    simp only [hdes]
    rw [if_neg (by simp)]
    obtain ⟨hnames, hzip⟩ := deserializeSeq_aligned cls.schema.parameters f.data ps [] hdes
    exact initCommand_aligned cls ps hnames hnd hzip

/-- Witness for C5 at a concrete class and frame. -/
theorem C5_witness :
    CommandBase.from_frame demoCls2 ⟨0x6102, [7]⟩ =
      Except.ok ⟨demoCls2, [(⟨"Status", .ptUint8⟩, some (RawValue.rUint8 7))]⟩ :=
  (C5_from_frame demoCls2 ⟨0x6102, [7]⟩ (by decide)).2.2
    [("Status", RawValue.rUint8 7)] rfl rfl

/-- C6: Immutability — every attempt to set or delete an attribute on a
command instance raises an error and yields no updated instance, so the
bound parameter set never changes after construction. -/
theorem C6_immutable :
    ∀ (c : CommandBase) (key : String) (value : RawValue),
    CommandBase.setattr c key value = Except.error CmdError.immutable ∧
    (CommandBase.setattr c key value).isOk = false ∧
    CommandBase.delattr c key = Except.error CmdError.immutable ∧
    (CommandBase.delattr c key).isOk = false :=
  fun _ _ _ => ⟨rfl, rfl, rfl, rfl⟩

/-- The `SYS.Ping` definition from the catalog: an SREQ with id `0x01`
and a `Capabilities` response field. -/
def pingDef : CommandDef :=
  ⟨CommandType.SREQ, 0x01, ⟨[]⟩, ⟨[⟨"Capabilities", .ptUint16⟩]⟩⟩

/-- C7: for every SREQ definition, the registered response class's header
is the request header plus `0x0040`, which is exactly the request header
with its type field replaced by SRSP. -/
theorem C7_srsp_header (s : Subsystem) (d : CommandDef)
    (h : d.command_type = CommandType.SREQ) :
    (mkSREQClasses s d).2.header = (mkSREQClasses s d).1.header + 0x0040 ∧
    (mkSREQClasses s d).2.header =
      CommandHeader.with_type (mkSREQClasses s d).1.header CommandType.SRSP.val := by
  have e1 : CommandType.SREQ.val = 1 := rfl
  have e3 : CommandType.SRSP.val = 3 := rfl
  have hs : s.val < 32 := s.isLt
  simp only [mkSREQClasses, commandHeaderFor, h, e1, e3, hdr_with_id_eq,
    hdr_with_type_eq, hdr_with_subsystem_eq]
  omega

/-- Witness for C7 at the concrete `SYS.Ping` command. -/
theorem C7_witness :
    (mkSREQClasses 1 pingDef).2.header = (mkSREQClasses 1 pingDef).1.header + 0x0040 ∧
    (mkSREQClasses 1 pingDef).2.header =
      CommandHeader.with_type (mkSREQClasses 1 pingDef).1.header CommandType.SRSP.val :=
  C7_srsp_header 1 pingDef rfl

/-- C8: CommandHeader bit decomposition — the subsystem accessor returns
the low 5 bits, the type accessor bits 5-7 (with POLL=0, SREQ=1, AREQ=2,
SRSP=3), and the id accessor the high 8 bits. -/
theorem C8_header_decomposition (h : Nat) (hlt : h < 65536) :
    (∃ s : Subsystem, CommandHeader.subsystem h = some s ∧ s.val = h % 32) ∧
    (∃ ct : CommandType, CommandHeader.type h = some ct ∧ ct.val = h / 32 % 8) ∧
    CommandHeader.id h = h / 256 ∧ h / 256 < 256 ∧
    CommandType.POLL.val = 0 ∧ CommandType.SREQ.val = 1 ∧
    CommandType.AREQ.val = 2 ∧ CommandType.SRSP.val = 3 := by
  refine ⟨?_, ?_, hdr_id_eq h, by omega, rfl, rfl, rfl, rfl⟩
  · rw [hdr_subsystem_eq]
    have hm : h % 32 < 32 := Nat.mod_lt _ (by norm_num)
    rw [Subsystem.ofNat?, dif_pos hm]
    exact ⟨⟨h % 32, hm⟩, rfl, rfl⟩
  · rw [hdr_type_eq]
    have hm : h / 32 % 8 < 8 := Nat.mod_lt _ (by norm_num)
    rw [CommandType.ofNat?, dif_pos hm]
    exact ⟨⟨h / 32 % 8, hm⟩, rfl, rfl⟩

/-- Witness for C8 at the concrete header `0x2101`. -/
theorem C8_witness :
    (∃ s : Subsystem, CommandHeader.subsystem 0x2101 = some s ∧ s.val = 0x2101 % 32) ∧
    (∃ ct : CommandType, CommandHeader.type 0x2101 = some ct ∧
      ct.val = 0x2101 / 32 % 8) ∧
    CommandHeader.id 0x2101 = 0x2101 / 256 ∧ 0x2101 / 256 < 256 ∧
    CommandType.POLL.val = 0 ∧ CommandType.SREQ.val = 1 ∧
    CommandType.AREQ.val = 2 ∧ CommandType.SRSP.val = 3 :=
  C8_header_decomposition 0x2101 (by norm_num)

/-- C9: Forward-compatible enumeration decoding — deserializing any byte
value never fails; a value that is not a declared member yields a
synthetic unknown member carrying that value, and an enumeration-typed
field in a schema likewise always parses. -/
theorem C9_enum_forward_compat :
    ∀ (b : Nat) (rest : List Nat),
    ErrorCode.deserialize (b :: rest) =
      some ((ErrorCode.fromValue? b).getD (ErrorCodeV.unknown b), rest) ∧
    (ErrorCode.fromValue? b = none →
      ErrorCode.deserialize (b :: rest) = some (ErrorCodeV.unknown b, rest) ∧
      (ErrorCodeV.unknown b).value = b) ∧
    deserializeP ParamType.ptEnumUint8 (b :: rest) =
      some (RawValue.rEnumU8 (Int.ofNat b), rest) := by
  intro b rest
  refine ⟨?_, ?_, rfl⟩
  · rw [ErrorCode.deserialize]
    cases hf : ErrorCode.fromValue? b <;> simp
  · intro hn
    rw [ErrorCode.deserialize, hn]
    exact ⟨rfl, rfl⟩

/-- Witness for C9 at the concrete undeclared byte `0xAB`. -/
theorem C9_witness :
    ErrorCode.deserialize (0xAB :: [1]) =
      some ((ErrorCode.fromValue? 0xAB).getD (ErrorCodeV.unknown 0xAB), [1]) ∧
    (ErrorCode.fromValue? 0xAB = none →
      ErrorCode.deserialize (0xAB :: [1]) = some (ErrorCodeV.unknown 0xAB, [1]) ∧
      (ErrorCodeV.unknown 0xAB).value = 0xAB) ∧
    deserializeP ParamType.ptEnumUint8 (0xAB :: [1]) =
      some (RawValue.rEnumU8 (Int.ofNat 0xAB), [1]) :=
  C9_enum_forward_compat 0xAB [1]

/-- C10: the CommandHeader field setters are frame-preserving — `with_id`
changes only the id bits, `with_subsystem` only the subsystem bits and
`with_type` only the type bits, leaving the other two fields unchanged. -/
theorem C10_setters_preserve (h v : Nat) (hlt : h < 65536) :
    (CommandHeader.subsystem (CommandHeader.with_id h v) = CommandHeader.subsystem h ∧
     CommandHeader.type (CommandHeader.with_id h v) = CommandHeader.type h ∧
     CommandHeader.id (CommandHeader.with_id h v) = v % 256) ∧
    (CommandHeader.type (CommandHeader.with_subsystem h v) = CommandHeader.type h ∧
     CommandHeader.id (CommandHeader.with_subsystem h v) = CommandHeader.id h ∧
     (∃ s : Subsystem,
        CommandHeader.subsystem (CommandHeader.with_subsystem h v) = some s ∧
        s.val = v % 32)) ∧
    (CommandHeader.subsystem (CommandHeader.with_type h v) = CommandHeader.subsystem h ∧
     CommandHeader.id (CommandHeader.with_type h v) = CommandHeader.id h ∧
     (∃ ct : CommandType,
        CommandHeader.type (CommandHeader.with_type h v) = some ct ∧
        ct.val = v % 8)) := by
  refine ⟨⟨?_, ?_, ?_⟩, ⟨?_, ?_, ?_⟩, ⟨?_, ?_, ?_⟩⟩
  · rw [hdr_subsystem_eq, hdr_subsystem_eq, hdr_with_id_eq]
    congr 1
    omega
  · rw [hdr_type_eq, hdr_type_eq, hdr_with_id_eq]
    congr 1
    omega
  · rw [hdr_id_eq, hdr_with_id_eq]
    omega
  · rw [hdr_type_eq, hdr_type_eq, hdr_with_subsystem_eq]
    congr 1
    omega
  · rw [hdr_id_eq, hdr_id_eq, hdr_with_subsystem_eq]
    omega
  · rw [hdr_subsystem_eq, hdr_with_subsystem_eq]
    have harg : (32 * (h / 32 % 2048) + v % 32) % 32 = v % 32 := by omega
    rw [harg]
    have hm : v % 32 < 32 := Nat.mod_lt _ (by norm_num)
    rw [Subsystem.ofNat?, dif_pos hm]
    exact ⟨⟨v % 32, hm⟩, rfl, rfl⟩
  · rw [hdr_subsystem_eq, hdr_subsystem_eq, hdr_with_type_eq]
    congr 1
    omega
  · rw [hdr_id_eq, hdr_id_eq, hdr_with_type_eq]
    omega
  · rw [hdr_type_eq, hdr_with_type_eq]
    have harg : (256 * (h / 256 % 256) + (32 * (v % 8) + h % 32)) / 32 % 8 = v % 8 := by
      omega
    rw [harg]
    have hm : v % 8 < 8 := Nat.mod_lt _ (by norm_num)
    rw [CommandType.ofNat?, dif_pos hm]
    exact ⟨⟨v % 8, hm⟩, rfl, rfl⟩

/-- Witness for C10 at the concrete header `0x2101` and value `0xFF`. -/
theorem C10_witness :
    (CommandHeader.subsystem (CommandHeader.with_id 0x2101 0xFF) =
        CommandHeader.subsystem 0x2101 ∧
     CommandHeader.type (CommandHeader.with_id 0x2101 0xFF) =
        CommandHeader.type 0x2101 ∧
     CommandHeader.id (CommandHeader.with_id 0x2101 0xFF) = 0xFF % 256) ∧
    (CommandHeader.type (CommandHeader.with_subsystem 0x2101 0xFF) =
        CommandHeader.type 0x2101 ∧
     CommandHeader.id (CommandHeader.with_subsystem 0x2101 0xFF) =
        CommandHeader.id 0x2101 ∧
     (∃ s : Subsystem,
        CommandHeader.subsystem (CommandHeader.with_subsystem 0x2101 0xFF) = some s ∧
        s.val = 0xFF % 32)) ∧
    (CommandHeader.subsystem (CommandHeader.with_type 0x2101 0xFF) =
        CommandHeader.subsystem 0x2101 ∧
     CommandHeader.id (CommandHeader.with_type 0x2101 0xFF) =
        CommandHeader.id 0x2101 ∧
     (∃ ct : CommandType,
        CommandHeader.type (CommandHeader.with_type 0x2101 0xFF) = some ct ∧
        ct.val = 0xFF % 8)) :=
  C10_setters_preserve 0x2101 0xFF (by norm_num)
